import Mathlib

/-!
Verification of the web3-authn SDK secure-confirmation core.

This file shallowly embeds, in Lean 4, the parts of the repository that the
frozen claims are about:

* the JSON value model used by `JSON.stringify` / `JSON.parse` in
  `src/packages/passkey/src/core/types/actions.ts` (`toActionArgsWasm`,
  `validateActionArgsWasm`);
* the secure-confirm orchestrator `handlePromptUserConfirmInJsMainThread`
  (its implementation file is not part of the provided sources, so it is
  modelled from the specification, with the behaviour pinned by the unit
  tests under `src/passkey-sdk/src/__tests__/unit/`);
* `recoverKeypairFromPasskey` from
  `src/passkey-sdk/src/core/WebAuthnManager/SignerWorkerManager/handlers/`;
* the WalletIframe router delivery discipline (modelled from the spec and
  `src/passkey-sdk/src/core/WalletIframe/README.md`);
* `AuthService.fetchTxContext`, `AuthService.verifyAuthenticationResponse`
  and `AuthService.parseContractResponse` from
  `src/passkey-sdk/src/server/core/AuthService.ts`.

Definitions come first, then the helper lemmas and claim theorems.
-/

namespace W3A

/-! ### Characters that the hygiene of this file keeps out of literals -/

/-- The double-quote character. -/
def quoteChar : Char := Char.ofNat 34

/-- The backslash character. -/
def backslashChar : Char := Char.ofNat 92

/-- The opening curly brace character. -/
def lbraceChar : Char := Char.ofNat 123

/-- The closing curly brace character. -/
def rbraceChar : Char := Char.ofNat 125

/-! ### JSON values, rendering (`JSON.stringify`) and parsing (`JSON.parse`)

`toActionArgsWasm` serialises `action.args` (a `Record<string, any>`) with
`JSON.stringify`, and `validateActionArgsWasm` checks the result with
`JSON.parse` inside a `try`.  We model the JavaScript value domain by `Json`
(numbers are integers; escaping of control characters inside strings is
elided: only the quote and the backslash are escaped, exactly the characters
the recogniser below treats specially). -/

/-- JSON values, the model of the JavaScript values fed to `JSON.stringify`. -/
inductive Json where
  | null : Json
  | bool : Bool → Json
  | num : Int → Json
  | str : String → Json
  | arr : List Json → Json
  | obj : List (String × Json) → Json
deriving Repr

/-- The decimal digit character for `n < 10`. -/
def natDigitChar (n : Nat) : Char := Char.ofNat (48 + n)

/-- Decimal digits of a natural number, most significant first. -/
def natDigits (n : Nat) : List Char :=
  if _h : n < 10 then [natDigitChar n]
  else natDigits (n / 10) ++ [natDigitChar (n % 10)]
decreasing_by
  exact Nat.div_lt_self (by omega) (by omega)

/-- Decimal rendering of an integer, as `JSON.stringify` renders it. -/
def renderInt (i : Int) : List Char :=
  if i < 0 then '-' :: natDigits i.natAbs else natDigits i.natAbs

/-- String-body escaping performed by `JSON.stringify`: quote and backslash
are escaped with a backslash (control-character escapes are elided). -/
def escapeChars : List Char → List Char
  | [] => []
  | c :: cs =>
    if c = quoteChar ∨ c = backslashChar then backslashChar :: c :: escapeChars cs
    else c :: escapeChars cs

/-- The keyword `null` as characters. -/
def nullChars : List Char := ['n', 'u', 'l', 'l']

/-- The keyword `true` as characters. -/
def trueChars : List Char := ['t', 'r', 'u', 'e']

/-- The keyword `false` as characters. -/
def falseChars : List Char := ['f', 'a', 'l', 's', 'e']

mutual

/-- Characters of the `JSON.stringify` rendering of a value. -/
def renderChars : Json → List Char
  | .num i => renderInt i
  | .str s => quoteChar :: escapeChars s.data ++ [quoteChar]
  | .null => nullChars
  | .bool b => if b then trueChars else falseChars
  | .arr [] => ['[', ']']
  | .arr (x :: xs) => '[' :: renderElemsChars x xs
  | .obj [] => [lbraceChar, rbraceChar]
  | .obj (f :: fs) => lbraceChar :: renderMembersChars f fs
termination_by v => sizeOf v

/-- Rendering of the elements of a non-empty array, comma separated and
terminated with the closing bracket. -/
def renderElemsChars : Json → List Json → List Char
  | x, [] => renderChars x ++ [']']
  | x, y :: ys => renderChars x ++ ',' :: renderElemsChars y ys
termination_by x xs => 1 + sizeOf x + sizeOf xs

/-- Rendering of the members of a non-empty object, comma separated and
terminated with the closing brace. -/
def renderMembersChars : (String × Json) → List (String × Json) → List Char
  | (k, v), [] =>
      quoteChar :: escapeChars k.data ++ quoteChar :: ':' :: renderChars v ++ [rbraceChar]
  | (k, v), g :: gs =>
      quoteChar :: escapeChars k.data ++ quoteChar :: ':' :: renderChars v
        ++ ',' :: renderMembersChars g gs
termination_by kv fs => 1 + sizeOf kv + sizeOf fs

end

/-- The `JSON.stringify` model: rendering of a value as a string. -/
def Json.render (v : Json) : String := String.mk (renderChars v)

/-- Consume a maximal run of decimal digits. -/
def skipDigits : List Char → List Char
  | [] => []
  | c :: cs => if c.isDigit then skipDigits cs else c :: cs

/-- Whether a character list does not start with a decimal digit (used to
state where a rendered number can be followed without being absorbed). -/
def noDigitHead : List Char → Bool
  | [] => true
  | c :: _ => !c.isDigit

/-- Recognise the remainder of a number after the optional minus sign:
at least one digit, then a maximal digit run. -/
def parseNatTail : List Char → Option (List Char)
  | [] => none
  | c :: cs => if c.isDigit then some (skipDigits cs) else none

/-- Recognise the remainder of a string literal after the opening quote:
characters until an unescaped quote; a backslash skips the next character. -/
def parseStringRest : List Char → Option (List Char)
  | [] => none
  | c :: cs =>
    if c = quoteChar then some cs
    else if c = backslashChar then
      match cs with
      | [] => none
      | _ :: cs' => parseStringRest cs'
    else parseStringRest cs

/-- Recognise a literal word (used for `null`, `true`, `false` tails). -/
def expectLit : List Char → List Char → Option (List Char)
  | [], cs => some cs
  | l :: ls, c :: cs => if c = l then expectLit ls cs else none
  | _ :: _, [] => none

mutual

/-- Fuel-indexed recogniser for one JSON value, the model of `JSON.parse`
(success means the input starts with a valid JSON value; the remainder is
returned).  Running out of fuel conservatively fails. -/
def parseVal : Nat → List Char → Option (List Char)
  | 0, _ => none
  | _ + 1, [] => none
  | fuel + 1, c :: r =>
    if c.isDigit then some (skipDigits r)
    else if c = '-' then parseNatTail r
    else if c = quoteChar then parseStringRest r
    else if c = '[' then
      match r with
      | ']' :: r' => some r'
      | _ => parseElems fuel r
    else if c = lbraceChar then
      match r with
      | r0 :: r' => if r0 = rbraceChar then some r' else parseMembers fuel (r0 :: r')
      | [] => none
    else if c = 'n' then expectLit ['u', 'l', 'l'] r
    else if c = 't' then expectLit ['r', 'u', 'e'] r
    else if c = 'f' then expectLit ['a', 'l', 's', 'e'] r
    else none

/-- Recognise the elements of a non-empty array body up to and including the
closing bracket. -/
def parseElems : Nat → List Char → Option (List Char)
  | 0, _ => none
  | fuel + 1, cs =>
    match parseVal fuel cs with
    | none => none
    | some r =>
      match r with
      | ',' :: r' => parseElems fuel r'
      | ']' :: r' => some r'
      | _ => none

/-- Recognise the members of a non-empty object body up to and including the
closing brace. -/
def parseMembers : Nat → List Char → Option (List Char)
  | 0, _ => none
  | fuel + 1, cs =>
    match cs with
    | [] => none
    | c :: r =>
      if c = quoteChar then
        match parseStringRest r with
        | none => none
        | some r2 =>
          match r2 with
          | ':' :: r3 =>
            match parseVal fuel r3 with
            | none => none
            | some r4 =>
              match r4 with
              | ',' :: r5 => parseMembers fuel r5
              | r40 :: r5 => if r40 = rbraceChar then some r5 else none
              | [] => none
          | _ => none
      else none

end

/-- The `JSON.parse` validity model used by `validateActionArgsWasm`:
the whole string is one JSON value.  The fuel `2 * length + 1` is enough
for every `JSON.stringify` output (proved below). -/
def jsonValid (s : String) : Bool :=
  match parseVal (2 * s.length + 1) s.data with
  | some [] => true
  | _ => false

/-! ### NEAR actions (src/packages/passkey/src/core/types/actions.ts) -/

/-- `DeployContractAction.code`: contract code as a string or a byte array. -/
inductive ContractCode where
  | text (s : String)
  | bytes (bs : List Nat)
deriving DecidableEq, Repr

/-- `AddKeyAction.accessKey.permission`. -/
inductive AccessKeyPermission where
  | fullAccess
  | functionCallPerm (allowance : Option String) (receiverId : Option String)
      (methodNames : Option (List String))
deriving DecidableEq, Repr

/-- `AddKeyAction.accessKey`. -/
structure AccessKey where
  nonce : Option Nat
  permission : AccessKeyPermission
deriving DecidableEq, Repr

/-- The `ActionArgs` tagged union (camelCase JS side). -/
inductive ActionArgs where
  | functionCall (methodName : String) (args : Json) (gas : Option String) (deposit : Option String)
  | transfer (amount : String)
  | createAccount
  | deployContract (code : ContractCode)
  | stake (stake : String) (publicKey : String)
  | addKey (publicKey : String) (accessKey : AccessKey)
  | deleteKey (publicKey : String)
  | deleteAccount (beneficiaryId : String)
deriving Repr

/-- The `ActionArgsWasm` tagged union (snake_case wasm side). -/
inductive ActionArgsWasm where
  | createAccount
  | deployContract (code : List Nat)
  | functionCall (methodName : String) (args : String) (gas : String) (deposit : String)
  | transfer (deposit : String)
  | stake (stake : String) (publicKey : String)
  | addKey (publicKey : String) (accessKey : String)
  | deleteKey (publicKey : String)
  | deleteAccount (beneficiaryId : String)
deriving DecidableEq, Repr

/-- JavaScript `o || dflt` for an optional string: `undefined` and the empty
string are falsy, so either picks the default. -/
def jsOrElse (o : Option String) (dflt : String) : String :=
  match o with
  | none => dflt
  | some s => if s.isEmpty then dflt else s

/-- An optional object field: `JSON.stringify` omits `undefined` properties. -/
def optField (name : String) (v : Option Json) : List (String × Json) :=
  match v with
  | some j => [(name, j)]
  | none => []

/-- The JSON value of an access-key permission, as built by `toActionArgsWasm`:
`'FullAccess'` becomes the object with an empty `FullAccess` member and a
function-call permission is passed as-is. -/
def permissionJson : AccessKeyPermission → Json
  | .fullAccess => .obj [("FullAccess", .obj [])]
  | .functionCallPerm allowance receiverId methodNames =>
    .obj [("FunctionCall", .obj (
      optField "allowance" (allowance.map .str)
      ++ optField "receiverId" (receiverId.map .str)
      ++ optField "methodNames" (methodNames.map (fun ms => .arr (ms.map .str)))))]

/-- The access-key object serialised by the `AddKey` branch of
`toActionArgsWasm`: nonce defaulted with `|| 0`, permission normalised. -/
def accessKeyJson (ak : AccessKey) : Json :=
  .obj [("nonce", .num (ak.nonce.getD 0)), ("permission", permissionJson ak.permission)]

/-- UTF-8 bytes of one character, the `TextEncoder` model. -/
def utf8CharBytes (c : Char) : List Nat :=
  let n := c.toNat
  if n < 128 then [n]
  else if n < 2048 then [192 + n / 64, 128 + n % 64]
  else if n < 65536 then [224 + n / 4096, 128 + (n / 64) % 64, 128 + n % 64]
  else [240 + n / 262144, 128 + (n / 4096) % 64, 128 + (n / 64) % 64, 128 + n % 64]

/-- UTF-8 bytes of a string (`new TextEncoder().encode(s)`). -/
def utf8Bytes (s : String) : List Nat := s.data.flatMap utf8CharBytes

/-- Embedding of `toActionArgsWasm` (actions.ts lines 151-217). -/
def toActionArgsWasm : ActionArgs → ActionArgsWasm
  | .transfer amount => .transfer amount
  | .functionCall methodName args gas deposit =>
    .functionCall methodName (Json.render args)
      (jsOrElse gas "30000000000000") (jsOrElse deposit "0")
  | .addKey publicKey accessKey => .addKey publicKey (Json.render (accessKeyJson accessKey))
  | .deleteKey publicKey => .deleteKey publicKey
  | .createAccount => .createAccount
  | .deleteAccount beneficiaryId => .deleteAccount beneficiaryId
  | .deployContract code =>
    .deployContract (match code with | .text s => utf8Bytes s | .bytes bs => bs)
  | .stake stake publicKey => .stake stake publicKey

/-- Embedding of `validateActionArgsWasm` (actions.ts lines 224-288); a
`.error` value models a thrown `Error`, and the emptiness tests model the
JavaScript falsiness of the empty string and of an empty `number[]`. -/
def validateActionArgsWasm : ActionArgsWasm → Except String Unit
  | .functionCall methodName args gas deposit =>
    if methodName.isEmpty then .error "method_name required for FunctionCall"
    else if args.isEmpty then .error "args required for FunctionCall"
    else if gas.isEmpty then .error "gas required for FunctionCall"
    else if deposit.isEmpty then .error "deposit required for FunctionCall"
    else if jsonValid args then .ok ()
    else .error "FunctionCall action args must be valid JSON string"
  | .transfer deposit =>
    if deposit.isEmpty then .error "deposit required for Transfer" else .ok ()
  | .createAccount => .ok ()
  | .deployContract code =>
    if code.isEmpty then .error "code required for DeployContract" else .ok ()
  | .stake stake publicKey =>
    if stake.isEmpty then .error "stake amount required for Stake"
    else if publicKey.isEmpty then .error "public_key required for Stake"
    else .ok ()
  | .addKey publicKey accessKey =>
    if publicKey.isEmpty then .error "public_key required for AddKey"
    else if accessKey.isEmpty then .error "access_key required for AddKey"
    else .ok ()
  | .deleteKey publicKey =>
    if publicKey.isEmpty then .error "public_key required for DeleteKey" else .ok ()
  | .deleteAccount beneficiaryId =>
    if beneficiaryId.isEmpty then .error "beneficiary_id required for DeleteAccount" else .ok ()

/-- The hypotheses of claim C9: required string fields are non-empty
(amount for Transfer, methodName for FunctionCall, stake and publicKey for
Stake, publicKey for AddKey and DeleteKey, beneficiaryId for DeleteAccount,
non-empty code for DeployContract). -/
def requiredFieldsNonEmpty : ActionArgs → Prop
  | .functionCall methodName _ _ _ => methodName.isEmpty = false
  | .transfer amount => amount.isEmpty = false
  | .createAccount => True
  | .deployContract (.text s) => s.isEmpty = false
  | .deployContract (.bytes bs) => bs ≠ []
  | .stake stake publicKey => stake.isEmpty = false ∧ publicKey.isEmpty = false
  | .addKey publicKey _ => publicKey.isEmpty = false
  | .deleteKey publicKey => publicKey.isEmpty = false
  | .deleteAccount beneficiaryId => beneficiaryId.isEmpty = false

/-- Whether `pat` is a prefix of `hay`. -/
def prefixOfChars : List Char → List Char → Bool
  | [], _ => true
  | _ :: _, [] => false
  | p :: ps, c :: cs => if c = p then prefixOfChars ps cs else false

/-- Whether `pat` occurs contiguously in `hay`. -/
def containsSubChars (hay pat : List Char) : Bool :=
  if prefixOfChars pat hay then true
  else
    match hay with
    | [] => false
    | _ :: t => containsSubChars t pat

/-- Whether a string contains another as a contiguous substring. -/
def containsSubstr (s pat : String) : Bool := containsSubChars s.data pat.data

/-! ### The secure-confirm orchestrator

`handlePromptUserConfirmInJsMainThread` (confirmTxFlow/handleSecureConfirmRequest.ts)
is exercised by the unit tests in the sources but its implementation file is
not among them, so the orchestrator is modelled from the specification
(§4.1 of the spec), with two behaviours pinned by the unit tests:

* validation of the payload happens before the dispatch on the type tag
  (the unsupported-type test passes a non-empty payload "to bypass payload
  guard");
* on a missing PRF output the error propagates as an exception and no
  terminal message is posted (`Signing flow: missing PRF output surfaces
  error` expects a thrown `Missing PRF result` and `messageCount` 0), and
  the user decision is taken before the credential ceremony (the cancel
  tests use credentials without extension results and still observe a clean
  `confirmed:false`). -/

/-- `ConfirmationConfig.uiMode`. -/
inductive UiMode where
  | modal
  | drawer
  | skip
deriving DecidableEq, Repr

/-- `ConfirmationConfig.behavior`. -/
inductive ConfirmBehavior where
  | requireClick
  | autoProceed
deriving DecidableEq, Repr

/-- The confirmation configuration read from the preferences collaborator. -/
structure ConfirmationConfig where
  uiMode : UiMode
  behavior : ConfirmBehavior
  autoProceedDelay : Nat
deriving DecidableEq, Repr

/-- The closed set of confirmation types plus the explicit unknown-tag case. -/
inductive SecureConfirmationType where
  | signTransaction
  | registerAccount
  | recoverKeypair
  | showSecurePrivateKeyUi
  | unknownTag (tag : String)
deriving DecidableEq, Repr

/-- The request payload, abstracted to what the claims need: the number of
transaction signing sub-requests (`txSigningRequests.length`). -/
structure SecureConfirmPayload where
  txCount : Nat
deriving DecidableEq, Repr

/-- An inbound secure-confirm request. -/
structure SecureConfirmRequest where
  schemaVersion : Nat
  requestId : String
  ctype : SecureConfirmationType
  payload : Option SecureConfirmPayload
deriving DecidableEq, Repr

/-- A terminal `USER_PASSKEY_CONFIRM_RESPONSE` message body. -/
structure ConfirmationResult where
  confirmed : Bool
  error : Option String
deriving DecidableEq, Repr

/-- Behaviour of the external collaborators for one request: the access-key nonce
returned by the nonce manager, and which PRF extension outputs the
credential ceremony produces. -/
structure CollabEnv where
  accessKeyNonce : Nat
  prfFirst : Bool
  prfSecond : Bool
deriving DecidableEq, Repr

/-- Outcome of the awaiting-decision race (confirm click, cancel event or
elapsed auto-proceed delay; the delay counts as confirm). -/
inductive UserDecision where
  | confirm
  | cancel
deriving DecidableEq, Repr

/-- Observable effects of one `handle` call: terminal messages posted to the
worker, a propagated exception if any, the reserved and released nonces,
whether the viewer surface is still mounted after the terminal message, and
how many nonce/challenge/credential collaborator calls were made. -/
structure HandleOutcome where
  messages : List ConfirmationResult
  thrown : Option String
  reserved : List String
  released : List String
  viewerMounted : Bool
  collabCalls : Nat
deriving DecidableEq, Repr

/-- Modelled from the spec: the NonceManager's `reserve(count)` (the client
NonceManager implementation is not among the sources).  It hands out the
decimal strings of the `count` sequence numbers after the access-key nonce,
in order, matching the unit-test mock `String(301 + i)`. -/
def reserveNonces (baseNonce count : Nat) : List String :=
  (List.range count).map (fun i => Nat.repr (baseNonce + 1 + i))

/-- Modelled from the spec (§4.1 step 8): `uiMode=skip` and
`behavior=autoProceed` proceed immediately; `requireClick` takes the race
outcome. -/
def effectiveDecision (cfg : ConfirmationConfig) (d : UserDecision) : UserDecision :=
  match cfg.uiMode, cfg.behavior with
  | .skip, _ => .confirm
  | _, .autoProceed => .confirm
  | _, .requireClick => d

/-- The number of signing sub-requests of a request (N of spec §4.1 step 4):
`txSigningRequests.length` for a transaction, one registration transaction
for a registration, none for recovery or the key viewer. -/
def numSigningRequests (ctype : SecureConfirmationType) (p : SecureConfirmPayload) : Nat :=
  match ctype with
  | .signTransaction => p.txCount
  | .registerAccount => 1
  | _ => 0

/-- Modelled from the spec (§4.1 steps 4-10): one reserving flow of the
orchestrator.  Reserve first; on cancel release everything and answer
`confirmed:false` without an error; on confirm run the credential ceremony,
and if a required PRF output is missing release everything and let the
error propagate (no terminal message — pinned by the missing-PRF unit
tests), otherwise answer `confirmed:true`. -/
def flowOutcome (cfg : ConfirmationConfig) (env : CollabEnv) (decision : UserDecision)
    (needsSecond : Bool) (count : Nat) : HandleOutcome :=
  let reserved := reserveNonces env.accessKeyNonce count
  match effectiveDecision cfg decision with
  | .cancel =>
    { messages := [{ confirmed := false, error := none }], thrown := none,
      reserved := reserved, released := reserved, viewerMounted := false, collabCalls := 2 }
  | .confirm =>
    if env.prfFirst && (!needsSecond || env.prfSecond) then
      { messages := [{ confirmed := true, error := none }], thrown := none,
        reserved := reserved, released := [], viewerMounted := false, collabCalls := 3 }
    else
      { messages := [], thrown := some "Missing PRF result",
        reserved := reserved, released := reserved, viewerMounted := false, collabCalls := 3 }

/-- Modelled from the spec (§4.1): `handlePromptUserConfirmInJsMainThread`.
Steps: validate payload and schemaVersion, dispatch on the type tag
(unknown tag answers the structured unsupported error), the key-viewer flow
reserves nothing, answers `confirmed:true` and leaves its surface mounted;
the remaining flows run `flowOutcome` (recovery needs both PRF outputs and
reserves nothing; signing reserves one nonce per sub-request; registration
reserves one). -/
def handleSecureConfirm (cfg : ConfirmationConfig) (env : CollabEnv) (decision : UserDecision)
    (req : SecureConfirmRequest) : HandleOutcome :=
  match req.payload with
  | none =>
    { messages := [{ confirmed := false,
                     error := some "Invalid secure confirm request: missing payload" }],
      thrown := none, reserved := [], released := [], viewerMounted := false, collabCalls := 0 }
  | some p =>
    if req.schemaVersion ≠ 2 then
      { messages := [{ confirmed := false,
                       error := some "Invalid secure confirm request: bad schemaVersion" }],
        thrown := none, reserved := [], released := [], viewerMounted := false, collabCalls := 0 }
    else
      match req.ctype with
      | .unknownTag _ =>
        { messages := [{ confirmed := false, error := some "Unsupported confirmation type" }],
          thrown := none, reserved := [], released := [], viewerMounted := false, collabCalls := 0 }
      | .showSecurePrivateKeyUi =>
        { messages := [{ confirmed := true, error := none }], thrown := none,
          reserved := [], released := [], viewerMounted := true, collabCalls := 0 }
      | .signTransaction => flowOutcome cfg env decision false (numSigningRequests .signTransaction p)
      | .registerAccount => flowOutcome cfg env decision false (numSigningRequests .registerAccount p)
      | .recoverKeypair => flowOutcome cfg env decision true 0

/-! ### recoverKeypairFromPasskey (SignerWorkerManager/handlers) -/

/-- `credential.clientExtensionResults.prf.results`. -/
structure PrfResults where
  first : Option String
  second : Option String
deriving DecidableEq, Repr

/-- The slice of `WebAuthnAuthenticationCredential` the handler reads. -/
structure WebAuthnAuthenticationCredential where
  prf : PrfResults
deriving DecidableEq, Repr

/-- The value returned on success. -/
structure RecoveredKeypair where
  publicKey : String
  encryptedPrivateKey : String
  iv : String
  accountIdHint : Option String
deriving DecidableEq, Repr

/-- The signer worker's reply to `RecoverKeypairFromPasskey`. -/
inductive RecoverWorkerResponse where
  | success (publicKey encryptedData iv : String) (accountIdHint : Option String)
  | failure
deriving DecidableEq, Repr

deriving instance DecidableEq for Except

/-- Observable behaviour of one `recoverKeypairFromPasskey` call: the result
(or thrown error) and how many messages were sent to the signer worker. -/
structure RecoverOutcome where
  result : Except String RecoveredKeypair
  workerMessagesSent : Nat
deriving DecidableEq, Repr

/-- JavaScript truthiness of an optional PRF output. -/
def prfPresent (o : Option String) : Bool :=
  match o with
  | some s => !s.isEmpty
  | none => false

/-- Embedding of `recoverKeypairFromPasskey` (handlers/recoverKeypairFromPasskey.ts):
verify both PRF outputs before `ctx.sendMessage`, rethrowing on failure. -/
def recoverKeypairFromPasskey (credential : WebAuthnAuthenticationCredential)
    (workerResponse : RecoverWorkerResponse) : RecoverOutcome :=
  if !prfPresent credential.prf.first || !prfPresent credential.prf.second then
    { result := .error "Dual PRF outputs required for account recovery - both ChaCha20 and Ed25519 PRF outputs must be available",
      workerMessagesSent := 0 }
  else
    match workerResponse with
    | .success publicKey encryptedData iv accountIdHint =>
      { result := .ok { publicKey := publicKey, encryptedPrivateKey := encryptedData,
                        iv := iv, accountIdHint := accountIdHint },
        workerMessagesSent := 1 }
    | .failure =>
      { result := .error "Dual PRF keypair recovery failed in WASM worker",
        workerMessagesSent := 1 }

/-! ### WalletIframe router delivery -/

/-- A child-to-parent wire message for a request id: a `PROGRESS` event or
the terminal `PM_RESULT`/`ERROR` message. -/
inductive WireMsg where
  | progress (requestId : String) (payload : String)
  | terminal (requestId : String) (ok : Bool)
deriving DecidableEq, Repr

/-- The request id a wire message belongs to. -/
def WireMsg.reqId : WireMsg → String
  | .progress rid _ => rid
  | .terminal rid _ => rid

/-- Whether a wire message is a progress event. -/
def WireMsg.isProgress : WireMsg → Bool
  | .progress _ _ => true
  | .terminal _ _ => false

/-- Whether a wire message is terminal. -/
def WireMsg.isTerminal : WireMsg → Bool
  | .progress _ _ => false
  | .terminal _ _ => true

/-- Whether a wire message belongs to a request id. -/
def msgFor (rid : String) (m : WireMsg) : Bool := m.reqId == rid

/-- Whether a wire message is the terminal message of a request id. -/
def terminalFor (rid : String) (m : WireMsg) : Bool := m.isTerminal && m.reqId == rid

/-- Whether a wire message is a progress event of a request id. -/
def progressFor (rid : String) (m : WireMsg) : Bool := m.isProgress && m.reqId == rid

/-- Modelled from the spec (§4.2) and the WalletIframe README (the router
implementation is not among the sources): the router delivers a message to
the caller only while a `PendingEntry` for its request id exists; the
terminal message destroys the entry; late messages for a discarded id are
ignored. -/
def routerDeliver (pending : List String) : List WireMsg → List WireMsg
  | [] => []
  | m :: rest =>
    if m.reqId ∈ pending then
      match m with
      | .progress _ _ => m :: routerDeliver pending rest
      | .terminal _ _ => m :: routerDeliver (pending.filter (fun x => x != m.reqId)) rest
    else routerDeliver pending rest

/-- After the first terminal message of a request id, no further message of
that id appears. -/
def termLast (rid : String) : List WireMsg → Bool
  | [] => true
  | m :: rest =>
    if terminalFor rid m then rest.all (fun m' => !msgFor rid m')
    else termLast rid rest

/-! ### AuthService (src/passkey-sdk/src/server/core/AuthService.ts) -/

/-- The slice of `FinalExecutionOutcome` that `parseContractExecutionError`
inspects (and `parseContractResponse` ignores). -/
structure FinalExecutionOutcome where
  statusFailure : Option String
  logs : List String
deriving DecidableEq, Repr

/-- The parsed contract response. -/
structure ContractResponse where
  verified : Bool
  success : Bool
deriving DecidableEq, Repr

/-- Embedding of `AuthService.parseContractResponse` (lines 770-784): the
execution outcome is never inspected; a constant verified/success response
is returned. -/
def parseContractResponse (_result : FinalExecutionOutcome) : ContractResponse :=
  { verified := true, success := true }

/-- Embedding of `AuthService.generateJWT`: a token whose payload carries
subject, issued-at, a 24-hour expiry in seconds and the issuer (the base64
wrapping and the demo signature segment are elided as injective
re-encodings). -/
def generateJWT (userId : String) (nowMs : Nat) : String :=
  Json.render (.obj [("sub", .str userId), ("iat", .num (nowMs / 1000)),
    ("exp", .num (nowMs / 1000 + 24 * 60 * 60)), ("iss", .str "web3authn-sdk")])

/-- The session credential issued alongside the JWT. -/
structure SessionCredential where
  userId : String
  issuedAtMs : Nat
  expiresAtMs : Nat
deriving DecidableEq, Repr

/-- The response of `verifyAuthenticationResponse`. -/
structure VerifyAuthenticationResponse where
  success : Bool
  verified : Bool
  jwt : Option String
  sessionCredential : Option SessionCredential
  error : Option String
deriving DecidableEq, Repr

/-- Embedding of `AuthService.verifyAuthenticationResponse` (lines 670-737),
abstracted over the broadcast step: `broadcast` is the result of building,
signing and sending the `verify_authentication_response` transaction
(`.error` models any throw up to and including `sendTransaction`), `nowMs`
models `Date.now()`.  On a resolved broadcast the outcome is parsed with
`parseContractResponse` and a JWT plus a 24-hour session credential are
issued. -/
def verifyAuthenticationResponse (broadcast : Except String FinalExecutionOutcome)
    (userId : String) (nowMs : Nat) : VerifyAuthenticationResponse :=
  match broadcast with
  | .error e =>
    { success := false, verified := false, jwt := none, sessionCredential := none,
      error := some e }
  | .ok result =>
    let contractResponse := parseContractResponse result
    if contractResponse.verified then
      { success := true, verified := true, jwt := some (generateJWT userId nowMs),
        sessionCredential := some { userId := userId, issuedAtMs := nowMs,
                                    expiresAtMs := nowMs + 24 * 60 * 60 * 1000 },
        error := none }
    else
      { success := false, verified := false, jwt := none, sessionCredential := none,
        error := some "Authentication verification failed" }

/-- Embedding of `AuthService.fetchTxContext` (lines 870-884): the next nonce
is the decimal string of the access-key nonce plus one, computed with exact
(BigInt) arithmetic; a missing or unreadable access key counts as nonce 0. -/
structure TxContext where
  nextNonce : String
  blockHash : String
deriving DecidableEq, Repr

/-- Embedding of `AuthService.fetchTxContext`: `viewAccessKey` is the RPC
result (`.error` models a throw, `none` a result without a nonce field),
`finalBlockHash` the hash of the final block. -/
def fetchTxContext (viewAccessKey : Except String (Option Nat)) (finalBlockHash : String) :
    TxContext :=
  let nonce : Nat :=
    match viewAccessKey with
    | .error _ => 0
    | .ok ak => ak.getD 0
  { nextNonce := Nat.repr (nonce + 1), blockHash := finalBlockHash }

/-! ## Lemmas: JSON rendering round-trips through the recogniser -/

theorem natDigitChar_isDigit (d : Nat) (hd : d < 10) : (natDigitChar d).isDigit = true := by
  interval_cases d <;> decide

theorem natDigits_ne_nil (n : Nat) : natDigits n ≠ [] := by
  unfold natDigits
  split <;> simp

theorem natDigits_all_digits (n : Nat) : ∀ c ∈ natDigits n, c.isDigit = true := by
  induction n using Nat.strong_induction_on with
  | _ n ih =>
    unfold natDigits
    split
    · next h =>
      intro c hc
      simp only [List.mem_singleton] at hc
      subst hc
      exact natDigitChar_isDigit n h
    · next h =>
      intro c hc
      simp only [List.mem_append, List.mem_singleton] at hc
      rcases hc with hc | hc
      · exact ih (n / 10) (Nat.div_lt_self (by omega) (by omega)) c hc
      · subst hc
        exact natDigitChar_isDigit _ (Nat.mod_lt _ (by omega))

theorem skipDigits_append (ds rest : List Char) (hds : ∀ c ∈ ds, c.isDigit = true)
    (hrest : noDigitHead rest = true) : skipDigits (ds ++ rest) = rest := by
  induction ds with
  | nil =>
    cases rest with
    | nil => rfl
    | cons c cs =>
      simp only [noDigitHead, Bool.not_eq_true'] at hrest
      simp [skipDigits, hrest]
  | cons d ds ih =>
    have hd : d.isDigit = true := hds d (by simp)
    simp only [List.cons_append, skipDigits, hd, if_pos]
    exact ih (fun c hc => hds c (by simp [hc]))

theorem parseStringRest_quote (rest : List Char) :
    parseStringRest (quoteChar :: rest) = some rest := by
  conv_lhs => unfold parseStringRest
  simp

theorem parseStringRest_other (c : Char) (h1 : c ≠ quoteChar) (h2 : c ≠ backslashChar)
    (tail : List Char) : parseStringRest (c :: tail) = parseStringRest tail := by
  conv_lhs => unfold parseStringRest
  simp [h1, h2]

theorem parseStringRest_escaped (c : Char) (tail : List Char) :
    parseStringRest (backslashChar :: c :: tail) = parseStringRest tail := by
  conv_lhs => unfold parseStringRest
  simp [show ¬(backslashChar = quoteChar) from by decide]

theorem parseStringRest_escape (cs rest : List Char) :
    parseStringRest (escapeChars cs ++ quoteChar :: rest) = some rest := by
  induction cs with
  | nil => simpa using parseStringRest_quote rest
  | cons c cs ih =>
    by_cases hc : c = quoteChar ∨ c = backslashChar
    · simp only [escapeChars, hc, if_pos, List.cons_append]
      rw [parseStringRest_escaped]
      exact ih
    · push_neg at hc
      simp only [escapeChars, hc, if_neg, List.cons_append, not_false_eq_true, or_self]
      rw [parseStringRest_other c hc.1 hc.2]
      exact ih

theorem parseVal_digit (f : Nat) (c : Char) (r : List Char) (h : c.isDigit = true) :
    parseVal (f + 1) (c :: r) = some (skipDigits r) := by
  conv_lhs => unfold parseVal
  simp [h]

theorem parseVal_minus (f : Nat) (r : List Char) :
    parseVal (f + 1) ('-' :: r) = parseNatTail r := by
  conv_lhs => unfold parseVal
  simp

theorem parseVal_quote (f : Nat) (r : List Char) :
    parseVal (f + 1) (quoteChar :: r) = parseStringRest r := by
  conv_lhs => unfold parseVal
  simp [show quoteChar.isDigit = false from by decide,
    show ¬(quoteChar = '-') from by decide]

theorem parseVal_arrEmpty (f : Nat) (r : List Char) :
    parseVal (f + 1) ('[' :: ']' :: r) = some r := by
  conv_lhs => unfold parseVal
  simp [show ¬('[' = quoteChar) from by decide]

theorem parseVal_arrCons (f : Nat) (c : Char) (t : List Char) (hc : c ≠ ']') :
    parseVal (f + 1) ('[' :: c :: t) = parseElems f (c :: t) := by
  conv_lhs => unfold parseVal
  simp [show ¬('[' = quoteChar) from by decide, hc]

theorem parseVal_objEmpty (f : Nat) (r : List Char) :
    parseVal (f + 1) (lbraceChar :: rbraceChar :: r) = some r := by
  conv_lhs => unfold parseVal
  simp [show lbraceChar.isDigit = false from by decide,
    show ¬(lbraceChar = '-') from by decide,
    show ¬(lbraceChar = quoteChar) from by decide,
    show ¬(lbraceChar = '[') from by decide]

theorem parseVal_objCons (f : Nat) (c : Char) (t : List Char) (hc : c ≠ rbraceChar) :
    parseVal (f + 1) (lbraceChar :: c :: t) = parseMembers f (c :: t) := by
  conv_lhs => unfold parseVal
  simp [show lbraceChar.isDigit = false from by decide,
    show ¬(lbraceChar = '-') from by decide,
    show ¬(lbraceChar = quoteChar) from by decide,
    show ¬(lbraceChar = '[') from by decide, hc]

theorem parseVal_null (f : Nat) (r : List Char) :
    parseVal (f + 1) ('n' :: 'u' :: 'l' :: 'l' :: r) = some r := by
  conv_lhs => unfold parseVal
  simp [show ¬('n' = quoteChar) from by decide,
    show ¬('n' = lbraceChar) from by decide, expectLit]

theorem parseVal_true (f : Nat) (r : List Char) :
    parseVal (f + 1) ('t' :: 'r' :: 'u' :: 'e' :: r) = some r := by
  conv_lhs => unfold parseVal
  simp [show ¬('t' = quoteChar) from by decide,
    show ¬('t' = lbraceChar) from by decide, expectLit]

theorem parseVal_false (f : Nat) (r : List Char) :
    parseVal (f + 1) ('f' :: 'a' :: 'l' :: 's' :: 'e' :: r) = some r := by
  conv_lhs => unfold parseVal
  simp [show ¬('f' = quoteChar) from by decide,
    show ¬('f' = lbraceChar) from by decide, expectLit]

/-- Induction principle for `Json` with element-wise hypotheses for the
nested lists. -/
theorem Json.indOn (P : Json → Prop) (hnull : P .null) (hbool : ∀ b, P (.bool b))
    (hnum : ∀ i, P (.num i)) (hstr : ∀ s, P (.str s))
    (harr : ∀ xs, (∀ x ∈ xs, P x) → P (.arr xs))
    (hobj : ∀ fs, (∀ kv ∈ fs, P kv.2) → P (.obj fs)) : ∀ v, P v
  | .null => hnull
  | .bool b => hbool b
  | .num i => hnum i
  | .str s => hstr s
  | .arr xs => harr xs (fun x hx =>
      have : sizeOf x < 1 + sizeOf xs := by
        have h1 := List.sizeOf_lt_of_mem hx
        omega
      Json.indOn P hnull hbool hnum hstr harr hobj x)
  | .obj fs => hobj fs (fun kv hkv =>
      have : sizeOf kv.2 < 1 + sizeOf fs := by
        have h1 := List.sizeOf_lt_of_mem hkv
        have h2 : sizeOf kv.2 < sizeOf kv := by
          obtain ⟨k, v2⟩ := kv
          simp only [Prod.mk.sizeOf_spec]
          omega
        omega
      Json.indOn P hnull hbool hnum hstr harr hobj kv.2)
termination_by v => sizeOf v

theorem renderChars_head (v : Json) : ∃ c t, renderChars v = c :: t ∧ c ≠ ']' := by
  cases v with
  | null => exact ⟨'n', ['u', 'l', 'l'], by simp [renderChars, nullChars], by decide⟩
  | bool b => cases b with
    | true => exact ⟨'t', ['r', 'u', 'e'], by simp [renderChars, trueChars], by decide⟩
    | false =>
      exact ⟨'f', ['a', 'l', 's', 'e'], by simp [renderChars, falseChars], by decide⟩
  | num i =>
    by_cases hi : i < 0
    · exact ⟨'-', natDigits i.natAbs, by simp [renderChars, renderInt, hi], by decide⟩
    · obtain ⟨c, t, hct⟩ := List.exists_cons_of_ne_nil (natDigits_ne_nil i.natAbs)
      refine ⟨c, t, by simp [renderChars, renderInt, hi, hct], ?_⟩
      have hcd : c.isDigit = true := natDigits_all_digits i.natAbs c (by simp [hct])
      intro hc
      subst hc
      exact absurd hcd (by decide)
  | str s =>
    exact ⟨quoteChar, escapeChars s.data ++ [quoteChar], by simp [renderChars], by decide⟩
  | arr xs => cases xs with
    | nil => exact ⟨'[', [']'], by simp [renderChars], by decide⟩
    | cons x xs => exact ⟨'[', renderElemsChars x xs, by simp [renderChars], by decide⟩
  | obj fs => cases fs with
    | nil => exact ⟨lbraceChar, [rbraceChar], by simp [renderChars], by decide⟩
    | cons g gs => exact ⟨lbraceChar, renderMembersChars g gs, by simp [renderChars], by decide⟩

theorem renderMembersChars_cons (kv : String × Json) (fs : List (String × Json)) :
    ∃ t, renderMembersChars kv fs = quoteChar :: t := by
  obtain ⟨k, v⟩ := kv
  cases fs with
  | nil =>
    exact ⟨escapeChars k.data ++ quoteChar :: ':' :: renderChars v ++ [rbraceChar],
      by simp [renderMembersChars]⟩
  | cons g gs =>
    exact ⟨escapeChars k.data ++ quoteChar :: ':' :: renderChars v
      ++ ',' :: renderMembersChars g gs, by simp [renderMembersChars]⟩

theorem parseElems_renderElems (xs : List Json) :
    ∀ x, (∀ f rest, 2 * (renderChars x).length ≤ f → noDigitHead rest = true →
        parseVal f (renderChars x ++ rest) = some rest) →
      (∀ y ∈ xs, ∀ f rest, 2 * (renderChars y).length ≤ f → noDigitHead rest = true →
        parseVal f (renderChars y ++ rest) = some rest) →
      ∀ f rest, 2 * (renderElemsChars x xs).length ≤ f + 1 → noDigitHead rest = true →
        parseElems f (renderElemsChars x xs ++ rest) = some rest := by
  induction xs with
  | nil =>
    intro x hx _ f rest hf hrest
    rw [show renderElemsChars x [] ++ rest = renderChars x ++ (']' :: rest) by
      simp [renderElemsChars]]
    simp only [renderElemsChars, List.length_append, List.length_cons, List.length_nil] at hf
    obtain ⟨g, rfl⟩ : ∃ g, f = g + 1 := ⟨f - 1, by omega⟩
    conv_lhs => unfold parseElems
    rw [hx g (']' :: rest) (by omega) (by simp [noDigitHead])]
    simp
  | cons y ys ih =>
    intro x hx hys f rest hf hrest
    rw [show renderElemsChars x (y :: ys) ++ rest
        = renderChars x ++ (',' :: (renderElemsChars y ys ++ rest)) by
      simp [renderElemsChars]]
    simp only [renderElemsChars, List.length_append, List.length_cons] at hf
    obtain ⟨g, rfl⟩ : ∃ g, f = g + 1 := ⟨f - 1, by omega⟩
    conv_lhs => unfold parseElems
    rw [hx g (',' :: (renderElemsChars y ys ++ rest)) (by omega) (by simp [noDigitHead])]
    simp only []
    exact ih y (hys y (by simp)) (fun z hz => hys z (by simp [hz])) g rest (by omega) hrest

theorem parseMembers_renderMembers (fs : List (String × Json)) :
    ∀ kv : String × Json,
      (∀ f rest, 2 * (renderChars kv.2).length ≤ f → noDigitHead rest = true →
        parseVal f (renderChars kv.2 ++ rest) = some rest) →
      (∀ g ∈ fs, ∀ f rest, 2 * (renderChars g.2).length ≤ f → noDigitHead rest = true →
        parseVal f (renderChars g.2 ++ rest) = some rest) →
      ∀ f rest, 2 * (renderMembersChars kv fs).length ≤ f + 1 → noDigitHead rest = true →
        parseMembers f (renderMembersChars kv fs ++ rest) = some rest := by
  induction fs with
  | nil =>
    intro kv hv _ f rest hf hrest
    obtain ⟨k, v⟩ := kv
    dsimp only at hv
    rw [show renderMembersChars (k, v) [] ++ rest
        = quoteChar :: (escapeChars k.data
            ++ quoteChar :: (':' :: (renderChars v ++ (rbraceChar :: rest)))) by
      simp [renderMembersChars]]
    simp only [renderMembersChars, List.length_append, List.length_cons] at hf
    obtain ⟨g, rfl⟩ : ∃ g, f = g + 1 := ⟨f - 1, by omega⟩
    conv_lhs => unfold parseMembers
    simp only [if_pos rfl]
    rw [parseStringRest_escape]
    simp only []
    rw [hv g (rbraceChar :: rest) (by omega) (by simp [noDigitHead]; decide)]
    simp [show ¬(rbraceChar = ',') from by decide]
  | cons g gs ih =>
    intro kv hv hgs f rest hf hrest
    obtain ⟨k, v⟩ := kv
    dsimp only at hv
    rw [show renderMembersChars (k, v) (g :: gs) ++ rest
        = quoteChar :: (escapeChars k.data
            ++ quoteChar :: (':' :: (renderChars v ++ (',' :: (renderMembersChars g gs ++ rest))))) by
      simp [renderMembersChars]]
    simp only [renderMembersChars, List.length_append, List.length_cons] at hf
    obtain ⟨f', rfl⟩ : ∃ f', f = f' + 1 := ⟨f - 1, by omega⟩
    conv_lhs => unfold parseMembers
    simp only [if_pos rfl]
    rw [parseStringRest_escape]
    simp only []
    rw [hv f' (',' :: (renderMembersChars g gs ++ rest)) (by omega) (by simp [noDigitHead])]
    simp only []
    exact ih g (hgs g (by simp)) (fun z hz => hgs z (by simp [hz])) f' rest (by omega) hrest

theorem parseVal_renderChars (v : Json) : ∀ f rest, 2 * (renderChars v).length ≤ f →
    noDigitHead rest = true → parseVal f (renderChars v ++ rest) = some rest := by
  induction v using Json.indOn with
  | hnull =>
    intro f rest hf _
    simp only [renderChars, nullChars, List.length_cons, List.length_nil] at hf
    obtain ⟨g, rfl⟩ : ∃ g, f = g + 1 := ⟨f - 1, by omega⟩
    rw [show renderChars Json.null ++ rest = 'n' :: 'u' :: 'l' :: 'l' :: rest by
      simp [renderChars, nullChars]]
    exact parseVal_null g rest
  | hbool b =>
    intro f rest hf _
    cases b with
    | true =>
      simp [renderChars, trueChars] at hf
      obtain ⟨g, rfl⟩ : ∃ g, f = g + 1 := ⟨f - 1, by omega⟩
      rw [show renderChars (Json.bool true) ++ rest = 't' :: 'r' :: 'u' :: 'e' :: rest by
        simp [renderChars, trueChars]]
      exact parseVal_true g rest
    | false =>
      simp [renderChars, falseChars] at hf
      obtain ⟨g, rfl⟩ : ∃ g, f = g + 1 := ⟨f - 1, by omega⟩
      rw [show renderChars (Json.bool false) ++ rest
          = 'f' :: 'a' :: 'l' :: 's' :: 'e' :: rest by
        simp [renderChars, falseChars]]
      exact parseVal_false g rest
  | hnum i =>
    intro f rest hf hrest
    have h0 : 0 < (natDigits i.natAbs).length :=
      List.length_pos.mpr (natDigits_ne_nil i.natAbs)
    have hlen : 1 ≤ (renderChars (Json.num i)).length := by
      by_cases hi : i < 0 <;> simp [renderChars, renderInt, hi]
      all_goals omega
    obtain ⟨g, rfl⟩ : ∃ g, f = g + 1 := ⟨f - 1, by omega⟩
    by_cases hi : i < 0
    · obtain ⟨c, t, hct⟩ := List.exists_cons_of_ne_nil (natDigits_ne_nil i.natAbs)
      rw [show renderChars (Json.num i) ++ rest = '-' :: (natDigits i.natAbs ++ rest) by
        simp [renderChars, renderInt, hi]]
      rw [parseVal_minus, hct]
      have hcd : c.isDigit = true := natDigits_all_digits i.natAbs c (by simp [hct])
      simp only [List.cons_append, parseNatTail, hcd, if_pos]
      rw [skipDigits_append t rest
        (fun d hd => natDigits_all_digits i.natAbs d (by simp [hct, hd])) hrest]
    · obtain ⟨c, t, hct⟩ := List.exists_cons_of_ne_nil (natDigits_ne_nil i.natAbs)
      rw [show renderChars (Json.num i) ++ rest = natDigits i.natAbs ++ rest by
        simp [renderChars, renderInt, hi]]
      rw [hct]
      have hcd : c.isDigit = true := natDigits_all_digits i.natAbs c (by simp [hct])
      rw [List.cons_append, parseVal_digit g c (t ++ rest) hcd]
      rw [skipDigits_append t rest
        (fun d hd => natDigits_all_digits i.natAbs d (by simp [hct, hd])) hrest]
  | hstr s =>
    intro f rest hf _
    simp only [renderChars, List.length_cons, List.length_append] at hf
    obtain ⟨g, rfl⟩ : ∃ g, f = g + 1 := ⟨f - 1, by omega⟩
    rw [show renderChars (Json.str s) ++ rest
        = quoteChar :: (escapeChars s.data ++ quoteChar :: rest) by simp [renderChars]]
    rw [parseVal_quote, parseStringRest_escape]
  | harr xs hxs =>
    intro f rest hf hrest
    cases xs with
    | nil =>
      simp only [renderChars, List.length_cons, List.length_nil] at hf
      obtain ⟨g, rfl⟩ : ∃ g, f = g + 1 := ⟨f - 1, by omega⟩
      rw [show renderChars (Json.arr []) ++ rest = '[' :: ']' :: rest by simp [renderChars]]
      exact parseVal_arrEmpty g rest
    | cons x xs =>
      have hx := hxs x (by simp)
      have hys : ∀ y ∈ xs, ∀ f rest, 2 * (renderChars y).length ≤ f → noDigitHead rest = true →
          parseVal f (renderChars y ++ rest) = some rest :=
        fun y hy => hxs y (by simp [hy])
      simp only [renderChars, List.length_cons] at hf
      obtain ⟨g, rfl⟩ : ∃ g, f = g + 1 := ⟨f - 1, by omega⟩
      obtain ⟨c, t, hct, hcne⟩ := renderChars_head x
      obtain ⟨tail0, htail0⟩ : ∃ tail0, renderElemsChars x xs = renderChars x ++ tail0 := by
        cases xs with
        | nil => exact ⟨[']'], by simp [renderElemsChars]⟩
        | cons y ys => exact ⟨',' :: renderElemsChars y ys, by simp [renderElemsChars]⟩
      have hshape : renderChars (Json.arr (x :: xs)) ++ rest
          = '[' :: c :: (t ++ tail0 ++ rest) := by
        simp [renderChars, htail0, hct]
      rw [hshape, parseVal_arrCons g c _ hcne]
      have hback : c :: (t ++ tail0 ++ rest) = renderElemsChars x xs ++ rest := by
        simp [htail0, hct]
      rw [hback]
      exact parseElems_renderElems xs x hx hys g rest (by omega) hrest
  | hobj fs hfs =>
    intro f rest hf hrest
    cases fs with
    | nil =>
      simp only [renderChars, List.length_cons, List.length_nil] at hf
      obtain ⟨g, rfl⟩ : ∃ g, f = g + 1 := ⟨f - 1, by omega⟩
      rw [show renderChars (Json.obj []) ++ rest = lbraceChar :: rbraceChar :: rest by
        simp [renderChars]]
      exact parseVal_objEmpty g rest
    | cons kv gs =>
      have hv := hfs kv (by simp)
      have hgs : ∀ z ∈ gs, ∀ f rest, 2 * (renderChars z.2).length ≤ f → noDigitHead rest = true →
          parseVal f (renderChars z.2 ++ rest) = some rest :=
        fun z hz => hfs z (by simp [hz])
      simp only [renderChars, List.length_cons] at hf
      obtain ⟨g, rfl⟩ : ∃ g, f = g + 1 := ⟨f - 1, by omega⟩
      obtain ⟨t, ht⟩ := renderMembersChars_cons kv gs
      have hshape : renderChars (Json.obj (kv :: gs)) ++ rest
          = lbraceChar :: quoteChar :: (t ++ rest) := by
        simp [renderChars, ht]
      rw [hshape, parseVal_objCons g quoteChar _ (by decide)]
      have hback : quoteChar :: (t ++ rest) = renderMembersChars kv gs ++ rest := by
        simp [ht]
      rw [hback]
      exact parseMembers_renderMembers gs kv hv hgs g rest (by omega) hrest

/-- Every `JSON.stringify` output is accepted by the `JSON.parse` model. -/
theorem jsonValid_render (v : Json) : jsonValid (Json.render v) = true := by
  unfold jsonValid
  have hdata : (Json.render v).data = renderChars v := rfl
  have hlen : (Json.render v).length = (renderChars v).length := rfl
  rw [hdata, hlen]
  have hmain := parseVal_renderChars v (2 * (renderChars v).length + 1) []
    (by omega) (by simp [noDigitHead])
  rw [show renderChars v ++ ([] : List Char) = renderChars v by simp] at hmain
  rw [hmain]

/-- A rendered JSON value is never the empty string. -/
theorem render_isEmpty (v : Json) : (Json.render v).isEmpty = false := by
  obtain ⟨c, t, hct, _⟩ := renderChars_head v
  have hne : Json.render v ≠ "" := by
    intro h
    have hd : renderChars v = [] := congrArg String.data h
    rw [hct] at hd
    exact List.noConfusion hd
  rw [← Bool.not_eq_true, String.isEmpty_iff]
  exact hne

theorem jsOrElse_isEmpty (o : Option String) (dflt : String) (hd : dflt.isEmpty = false) :
    (jsOrElse o dflt).isEmpty = false := by
  cases o with
  | none => exact hd
  | some s => by_cases hs : s.isEmpty <;> simp [jsOrElse, hs, hd]

theorem utf8CharBytes_ne_nil (c : Char) : utf8CharBytes c ≠ [] := by
  unfold utf8CharBytes
  intro h
  by_cases h1 : c.toNat < 128
  · simp [h1] at h
  · by_cases h2 : c.toNat < 2048
    · simp [h1, h2] at h
    · by_cases h3 : c.toNat < 65536
      · simp [h1, h2, h3] at h
      · simp [h1, h2, h3] at h

theorem utf8Bytes_ne_nil (s : String) (h : s.isEmpty = false) : utf8Bytes s ≠ [] := by
  obtain ⟨l⟩ := s
  cases l with
  | nil => exact absurd h (by decide)
  | cons c cs =>
    have : utf8Bytes (String.mk (c :: cs)) = utf8CharBytes c ++ utf8Bytes (String.mk cs) := rfl
    rw [this]
    intro hnil
    rcases List.append_eq_nil.mp hnil with ⟨h1, _⟩
    exact utf8CharBytes_ne_nil c h1

theorem list_isEmpty_false {α : Type} (l : List α) (h : l ≠ []) : l.isEmpty = false := by
  cases l with
  | nil => exact absurd rfl h
  | cons a as => rfl

/-! ## Claim C9 -/

/-- C9: for every `ActionArgs` action whose required string fields are
non-empty (amount for Transfer, methodName for FunctionCall, stake and
publicKey for Stake, publicKey for AddKey and DeleteKey, beneficiaryId for
DeleteAccount, non-empty code for DeployContract),
`validateActionArgsWasm (toActionArgsWasm action)` does not throw;
`toActionArgsWasm` always emits a valid JSON string for FunctionCall args
and defaults gas to `30000000000000` and deposit to `0`. -/
theorem spec_C9_actions_validate :
    (∀ a : ActionArgs, requiredFieldsNonEmpty a →
      validateActionArgsWasm (toActionArgsWasm a) = .ok ())
    ∧ (∀ methodName args gas deposit,
        toActionArgsWasm (.functionCall methodName args gas deposit)
          = .functionCall methodName (Json.render args)
              (jsOrElse gas "30000000000000") (jsOrElse deposit "0")
        ∧ jsonValid (Json.render args) = true)
    ∧ (∀ methodName args,
        toActionArgsWasm (.functionCall methodName args none none)
          = .functionCall methodName (Json.render args) "30000000000000" "0") := by
  refine ⟨?_, ?_, ?_⟩
  · intro a ha
    cases a with
    | functionCall methodName args gas deposit =>
      have hm : methodName.isEmpty = false := ha
      have hg := jsOrElse_isEmpty gas "30000000000000" (by decide)
      have hd := jsOrElse_isEmpty deposit "0" (by decide)
      simp [toActionArgsWasm, validateActionArgsWasm, hm, hg, hd,
        render_isEmpty args, jsonValid_render args]
    | transfer amount =>
      have hm : amount.isEmpty = false := ha
      simp [toActionArgsWasm, validateActionArgsWasm, hm]
    | createAccount => rfl
    | deployContract code =>
      cases code with
      | text s =>
        have hs : s.isEmpty = false := ha
        simp [toActionArgsWasm, validateActionArgsWasm,
          list_isEmpty_false _ (utf8Bytes_ne_nil s hs)]
      | bytes bs =>
        have hb : bs ≠ [] := ha
        simp [toActionArgsWasm, validateActionArgsWasm, list_isEmpty_false _ hb]
    | stake stake publicKey =>
      obtain ⟨h1, h2⟩ := ha
      simp [toActionArgsWasm, validateActionArgsWasm, h1, h2]
    | addKey publicKey accessKey =>
      have hp : publicKey.isEmpty = false := ha
      simp [toActionArgsWasm, validateActionArgsWasm, hp,
        render_isEmpty (accessKeyJson accessKey)]
    | deleteKey publicKey =>
      have hp : publicKey.isEmpty = false := ha
      simp [toActionArgsWasm, validateActionArgsWasm, hp]
    | deleteAccount beneficiaryId =>
      have hb : beneficiaryId.isEmpty = false := ha
      simp [toActionArgsWasm, validateActionArgsWasm, hb]
  · intro methodName args gas deposit
    exact ⟨rfl, jsonValid_render args⟩
  · intro methodName args
    rfl

/-- Witness for C9: the theorem applied to a concrete transfer and to a
concrete function call without gas or deposit. -/
theorem spec_C9_witness :
    validateActionArgsWasm (toActionArgsWasm (.transfer "1")) = .ok ()
    ∧ toActionArgsWasm (.functionCall "greet" (.obj []) none none)
        = .functionCall "greet" (Json.render (.obj [])) "30000000000000" "0" :=
  ⟨spec_C9_actions_validate.1 (.transfer "1") (by show "1".isEmpty = false; decide),
   spec_C9_actions_validate.2.2 "greet" (.obj [])⟩

/-! ## Helper lemmas about the orchestrator model -/

theorem flowOutcome_cases (cfg : ConfirmationConfig) (env : CollabEnv)
    (decision : UserDecision) (needsSecond : Bool) (count : Nat) :
    ((flowOutcome cfg env decision needsSecond count).thrown = none
      ∧ (flowOutcome cfg env decision needsSecond count).messages.length = 1)
    ∨ ((flowOutcome cfg env decision needsSecond count).thrown = some "Missing PRF result"
      ∧ (flowOutcome cfg env decision needsSecond count).messages = []
      ∧ (flowOutcome cfg env decision needsSecond count).released
          = (flowOutcome cfg env decision needsSecond count).reserved) := by
  unfold flowOutcome
  cases hd : effectiveDecision cfg decision with
  | cancel => left; simp
  | confirm =>
    by_cases hprf : (env.prfFirst && (!needsSecond || env.prfSecond)) = true
    · left; simp [hprf]
    · right; simp [hprf]

theorem flowOutcome_viewerMounted (cfg : ConfirmationConfig) (env : CollabEnv)
    (decision : UserDecision) (needsSecond : Bool) (count : Nat) :
    (flowOutcome cfg env decision needsSecond count).viewerMounted = false := by
  unfold flowOutcome
  cases hd : effectiveDecision cfg decision with
  | cancel => simp
  | confirm =>
    by_cases hprf : (env.prfFirst && (!needsSecond || env.prfSecond)) = true
    · simp [hprf]
    · simp [hprf]

/-! ## Claim C1 -/

/-- Counterexample to C1 as stated: on the missing-secret-outputs exit path
(a signing flow whose credential lacks the first PRF output) the handle
posts no terminal message at all and the `Missing PRF result` error
propagates as an exception — exactly what the repository's own unit test
`Signing flow: missing PRF output surfaces error` expects (a thrown error
and `messageCount` 0). -/
theorem spec_C1_counterexample :
    (handleSecureConfirm ⟨.skip, .autoProceed, 0⟩ ⟨400, false, false⟩ .confirm
        ⟨2, "prf-fail-sign", .signTransaction, some ⟨1⟩⟩).messages = []
    ∧ (handleSecureConfirm ⟨.skip, .autoProceed, 0⟩ ⟨400, false, false⟩ .confirm
        ⟨2, "prf-fail-sign", .signTransaction, some ⟨1⟩⟩).thrown
        = some "Missing PRF result" := by
  constructor <;> rfl

/-- C1 amended: for every inbound secure-confirm message the handle either
delivers exactly one terminal result message and propagates no exception
(validation failure, unsupported type, cancellation, confirmation, key
viewer), or — on the missing-secret-outputs path only — delivers no
terminal message, releases every reservation, and lets the
`Missing PRF result` error propagate to the caller. -/
theorem spec_C1_amended_terminal_delivery (cfg : ConfirmationConfig) (env : CollabEnv)
    (decision : UserDecision) (req : SecureConfirmRequest) :
    ((handleSecureConfirm cfg env decision req).thrown = none
      ∧ (handleSecureConfirm cfg env decision req).messages.length = 1)
    ∨ ((handleSecureConfirm cfg env decision req).thrown = some "Missing PRF result"
      ∧ (handleSecureConfirm cfg env decision req).messages = []
      ∧ (handleSecureConfirm cfg env decision req).released
          = (handleSecureConfirm cfg env decision req).reserved) := by
  rcases req with ⟨sv, rid, ct, pl⟩
  cases pl with
  | none => left; exact ⟨rfl, rfl⟩
  | some p =>
    by_cases hs : sv = 2
    · subst hs
      cases ct with
      | unknownTag tag => left; exact ⟨rfl, rfl⟩
      | showSecurePrivateKeyUi => left; exact ⟨rfl, rfl⟩
      | signTransaction => exact flowOutcome_cases cfg env decision false p.txCount
      | registerAccount => exact flowOutcome_cases cfg env decision false 1
      | recoverKeypair => exact flowOutcome_cases cfg env decision true 0
    · left
      simp [handleSecureConfirm, hs]

/-! ## Claim C2 -/

/-- C2: for every flow that reserves N sequence numbers (N = the number of
signing sub-requests) and is cancelled before the reservations are
consumed, the multiset of released sequence numbers equals the multiset of
reserved ones, and the emitted result is `confirmed:false` with no error
string. -/
theorem spec_C2_cancel_releases (cfg : ConfirmationConfig) (env : CollabEnv)
    (decision : UserDecision) (req : SecureConfirmRequest) (p : SecureConfirmPayload)
    (hp : req.payload = some p) (hs : req.schemaVersion = 2)
    (ht : req.ctype = .signTransaction ∨ req.ctype = .registerAccount
      ∨ req.ctype = .recoverKeypair)
    (hc : effectiveDecision cfg decision = .cancel) :
    ((handleSecureConfirm cfg env decision req).released : Multiset String)
        = ((handleSecureConfirm cfg env decision req).reserved : Multiset String)
    ∧ (handleSecureConfirm cfg env decision req).reserved.length
        = numSigningRequests req.ctype p
    ∧ (handleSecureConfirm cfg env decision req).messages
        = [{ confirmed := false, error := none }]
    ∧ (handleSecureConfirm cfg env decision req).thrown = none := by
  rcases req with ⟨sv, rid, ct, pl⟩
  simp only at hp hs ht
  subst hs
  subst hp
  rcases ht with h | h | h <;> subst h <;>
    simp [handleSecureConfirm, flowOutcome, hc, numSigningRequests, reserveNonces]

/-- Witness for C2: Scenario A's cancel path at base nonce 300 with one
signing sub-request. -/
theorem spec_C2_witness :
    ((handleSecureConfirm ⟨.modal, .requireClick, 0⟩ ⟨300, false, false⟩ .cancel
        ⟨2, "cancel-sign", .signTransaction, some ⟨1⟩⟩).released : Multiset String)
      = ((handleSecureConfirm ⟨.modal, .requireClick, 0⟩ ⟨300, false, false⟩ .cancel
        ⟨2, "cancel-sign", .signTransaction, some ⟨1⟩⟩).reserved : Multiset String)
    ∧ (handleSecureConfirm ⟨.modal, .requireClick, 0⟩ ⟨300, false, false⟩ .cancel
        ⟨2, "cancel-sign", .signTransaction, some ⟨1⟩⟩).messages
      = [{ confirmed := false, error := none }] :=
  ⟨(spec_C2_cancel_releases ⟨.modal, .requireClick, 0⟩ ⟨300, false, false⟩ .cancel
      ⟨2, "cancel-sign", .signTransaction, some ⟨1⟩⟩ ⟨1⟩ rfl rfl (Or.inl rfl) rfl).1,
   (spec_C2_cancel_releases ⟨.modal, .requireClick, 0⟩ ⟨300, false, false⟩ .cancel
      ⟨2, "cancel-sign", .signTransaction, some ⟨1⟩⟩ ⟨1⟩ rfl rfl (Or.inl rfl) rfl).2.2.1⟩

/-! ## Claim C3 -/

/-- C3: recovery flows fail with the missing-secret-output error when either
the first or the second PRF extension output is absent, while non-recovery
flows require only the first output; and `recoverKeypairFromPasskey` throws
before sending any message to the signer worker whenever first or second is
missing. -/
theorem spec_C3_dual_prf_requirements :
    (∀ cfg env decision req p, req.payload = some p → req.schemaVersion = 2 →
      req.ctype = .recoverKeypair → effectiveDecision cfg decision = .confirm →
      (env.prfFirst = false ∨ env.prfSecond = false) →
      (handleSecureConfirm cfg env decision req).thrown = some "Missing PRF result"
        ∧ (handleSecureConfirm cfg env decision req).messages = [])
    ∧ (∀ cfg env decision req p, req.payload = some p → req.schemaVersion = 2 →
      (req.ctype = .signTransaction ∨ req.ctype = .registerAccount) →
      env.prfFirst = true →
      (handleSecureConfirm cfg env decision req).thrown = none)
    ∧ (∀ credential workerResponse,
      (prfPresent credential.prf.first = false ∨ prfPresent credential.prf.second = false) →
      (recoverKeypairFromPasskey credential workerResponse).workerMessagesSent = 0
        ∧ ∃ e, (recoverKeypairFromPasskey credential workerResponse).result = .error e) := by
  refine ⟨?_, ?_, ?_⟩
  · intro cfg env decision req p hp hs ht hc hmiss
    rcases req with ⟨sv, rid, ct, pl⟩
    simp only at hp hs ht
    subst hs
    subst hp
    subst ht
    rcases hmiss with h | h <;> simp [handleSecureConfirm, flowOutcome, hc, h]
  · intro cfg env decision req p hp hs ht hfirst
    rcases req with ⟨sv, rid, ct, pl⟩
    simp only at hp hs ht
    subst hs
    subst hp
    rcases ht with h | h <;> subst h <;>
      cases hd : effectiveDecision cfg decision <;>
        simp [handleSecureConfirm, flowOutcome, hd, hfirst]
  · intro credential workerResponse hmiss
    have hcond : (!prfPresent credential.prf.first
        || !prfPresent credential.prf.second) = true := by
      rcases hmiss with h | h <;> simp [h]
    unfold recoverKeypairFromPasskey
    rw [if_pos hcond]
    exact ⟨rfl, _, rfl⟩

/-- Witness for C3: a recovery flow whose credential has only the first PRF
output throws, and the handler sends nothing to the worker. -/
theorem spec_C3_witness :
    (handleSecureConfirm ⟨.skip, .autoProceed, 0⟩ ⟨7, true, false⟩ .confirm
        ⟨2, "recover", .recoverKeypair, some ⟨0⟩⟩).thrown = some "Missing PRF result"
    ∧ (recoverKeypairFromPasskey ⟨⟨some "first-output", none⟩⟩ .failure).workerMessagesSent
        = 0 :=
  ⟨(spec_C3_dual_prf_requirements.1 ⟨.skip, .autoProceed, 0⟩ ⟨7, true, false⟩ .confirm
      ⟨2, "recover", .recoverKeypair, some ⟨0⟩⟩ ⟨0⟩ rfl rfl rfl rfl (Or.inr rfl)).1,
   (spec_C3_dual_prf_requirements.2.2 ⟨⟨some "first-output", none⟩⟩ .failure
     (Or.inr rfl)).1⟩

/-! ## Claim C4 -/

/-- C4: a SHOW_SECURE_PRIVATE_KEY_UI request performs no sequence-number
reservation, responds `confirmed:true`, and its viewer surface remains
mounted after the terminal message — and it is the only request type whose
viewer stays mounted. -/
theorem spec_C4_show_private_key_ui (cfg : ConfirmationConfig) (env : CollabEnv)
    (decision : UserDecision) (req : SecureConfirmRequest) (p : SecureConfirmPayload)
    (hp : req.payload = some p) (hs : req.schemaVersion = 2)
    (ht : req.ctype = .showSecurePrivateKeyUi) :
    (handleSecureConfirm cfg env decision req).reserved = []
    ∧ (handleSecureConfirm cfg env decision req).messages
        = [{ confirmed := true, error := none }]
    ∧ (handleSecureConfirm cfg env decision req).viewerMounted = true
    ∧ (handleSecureConfirm cfg env decision req).thrown = none
    ∧ (∀ cfg2 env2 d2 req2, (handleSecureConfirm cfg2 env2 d2 req2).viewerMounted = true →
        req2.ctype = .showSecurePrivateKeyUi) := by
  rcases req with ⟨sv, rid, ct, pl⟩
  simp only at hp hs ht
  subst hs
  subst hp
  subst ht
  refine ⟨rfl, rfl, rfl, rfl, ?_⟩
  intro cfg2 env2 d2 req2 hv
  rcases req2 with ⟨sv2, rid2, ct2, pl2⟩
  cases pl2 with
  | none => exact absurd hv (by simp [handleSecureConfirm])
  | some p2 =>
    by_cases hs2 : sv2 = 2
    · subst hs2
      cases ct2 with
      | unknownTag tag => exact absurd hv (by simp [handleSecureConfirm])
      | showSecurePrivateKeyUi => rfl
      | signTransaction =>
        exact absurd hv (by simp [handleSecureConfirm, flowOutcome_viewerMounted])
      | registerAccount =>
        exact absurd hv (by simp [handleSecureConfirm, flowOutcome_viewerMounted])
      | recoverKeypair =>
        exact absurd hv (by simp [handleSecureConfirm, flowOutcome_viewerMounted])
    · exact absurd hv (by simp [handleSecureConfirm, hs2])

/-- Witness for C4 at the unit-test input (drawer mode, requireClick). -/
theorem spec_C4_witness :
    (handleSecureConfirm ⟨.drawer, .requireClick, 0⟩ ⟨0, true, true⟩ .confirm
        ⟨2, "show-key", .showSecurePrivateKeyUi, some ⟨0⟩⟩).messages
      = [{ confirmed := true, error := none }]
    ∧ (handleSecureConfirm ⟨.drawer, .requireClick, 0⟩ ⟨0, true, true⟩ .confirm
        ⟨2, "show-key", .showSecurePrivateKeyUi, some ⟨0⟩⟩).viewerMounted = true :=
  ⟨(spec_C4_show_private_key_ui ⟨.drawer, .requireClick, 0⟩ ⟨0, true, true⟩ .confirm
      ⟨2, "show-key", .showSecurePrivateKeyUi, some ⟨0⟩⟩ ⟨0⟩ rfl rfl rfl).2.1,
   (spec_C4_show_private_key_ui ⟨.drawer, .requireClick, 0⟩ ⟨0, true, true⟩ .confirm
      ⟨2, "show-key", .showSecurePrivateKeyUi, some ⟨0⟩⟩ ⟨0⟩ rfl rfl rfl).2.2.1⟩

/-! ## Claim C5 -/

/-- C5: for every request whose type tag is outside the closed set of
confirmation types and whose payload is non-empty (and whose schemaVersion
passes validation), the handle emits the single result `confirmed:false`
with an error string containing `Unsupported`, no other terminal message,
and no exception. -/
theorem spec_C5_unsupported_type (cfg : ConfirmationConfig) (env : CollabEnv)
    (decision : UserDecision) (req : SecureConfirmRequest) (p : SecureConfirmPayload)
    (tag : String) (hp : req.payload = some p) (hs : req.schemaVersion = 2)
    (ht : req.ctype = .unknownTag tag) :
    (handleSecureConfirm cfg env decision req).messages
        = [{ confirmed := false, error := some "Unsupported confirmation type" }]
    ∧ containsSubstr "Unsupported confirmation type" "Unsupported" = true
    ∧ (handleSecureConfirm cfg env decision req).thrown = none := by
  rcases req with ⟨sv, rid, ct, pl⟩
  simp only at hp hs ht
  subst hs
  subst hp
  subst ht
  exact ⟨rfl, by decide, rfl⟩

/-- Witness for C5 at the unit-test input (`type:'unsupported_type'`,
non-empty payload). -/
theorem spec_C5_witness :
    (handleSecureConfirm ⟨.modal, .requireClick, 0⟩ ⟨0, true, true⟩ .confirm
        ⟨2, "req-1", .unknownTag "unsupported_type", some ⟨0⟩⟩).messages
      = [{ confirmed := false, error := some "Unsupported confirmation type" }] :=
  (spec_C5_unsupported_type ⟨.modal, .requireClick, 0⟩ ⟨0, true, true⟩ .confirm
    ⟨2, "req-1", .unknownTag "unsupported_type", some ⟨0⟩⟩ ⟨0⟩ "unsupported_type"
    rfl rfl rfl).1

/-! ## Claim C6 -/

/-- C6: for every request that fails shape/schemaVersion validation — the
payload missing entirely, or the schemaVersion not the supported one — the
handle emits a single result `confirmed:false` with an error string
containing `Invalid secure confirm request`, invokes no
nonce/challenge/credential collaborator, and propagates no exception. -/
theorem spec_C6_validation_failure (cfg : ConfirmationConfig) (env : CollabEnv)
    (decision : UserDecision) (req : SecureConfirmRequest)
    (hv : req.payload = none ∨ req.schemaVersion ≠ 2) :
    (∃ e, (handleSecureConfirm cfg env decision req).messages
          = [{ confirmed := false, error := some e }]
        ∧ containsSubstr e "Invalid secure confirm request" = true)
    ∧ (handleSecureConfirm cfg env decision req).collabCalls = 0
    ∧ (handleSecureConfirm cfg env decision req).thrown = none := by
  rcases req with ⟨sv, rid, ct, pl⟩
  simp only at hv
  cases pl with
  | none =>
    exact ⟨⟨"Invalid secure confirm request: missing payload", rfl, by decide⟩, rfl, rfl⟩
  | some p =>
    have hs : sv ≠ 2 := by
      rcases hv with h | h
      · exact absurd h (by simp)
      · exact h
    refine ⟨⟨"Invalid secure confirm request: bad schemaVersion", ?_, by decide⟩, ?_, ?_⟩
    · simp [handleSecureConfirm, hs]
    · simp [handleSecureConfirm, hs]
    · simp [handleSecureConfirm, hs]

/-- Witness for C6 at both validation-failure arms: the unit-test input
(valid type, payload omitted) and a request with a payload but an
unsupported schemaVersion. -/
theorem spec_C6_witness :
    ((handleSecureConfirm ⟨.modal, .requireClick, 0⟩ ⟨0, true, true⟩ .confirm
        ⟨2, "req-2", .signTransaction, none⟩).collabCalls = 0
      ∧ (handleSecureConfirm ⟨.modal, .requireClick, 0⟩ ⟨0, true, true⟩ .confirm
        ⟨2, "req-2", .signTransaction, none⟩).thrown = none)
    ∧ ((handleSecureConfirm ⟨.modal, .requireClick, 0⟩ ⟨0, true, true⟩ .confirm
        ⟨3, "req-3", .signTransaction, some ⟨1⟩⟩).collabCalls = 0
      ∧ (handleSecureConfirm ⟨.modal, .requireClick, 0⟩ ⟨0, true, true⟩ .confirm
        ⟨3, "req-3", .signTransaction, some ⟨1⟩⟩).thrown = none) :=
  ⟨⟨(spec_C6_validation_failure ⟨.modal, .requireClick, 0⟩ ⟨0, true, true⟩ .confirm
      ⟨2, "req-2", .signTransaction, none⟩ (Or.inl rfl)).2.1,
    (spec_C6_validation_failure ⟨.modal, .requireClick, 0⟩ ⟨0, true, true⟩ .confirm
      ⟨2, "req-2", .signTransaction, none⟩ (Or.inl rfl)).2.2⟩,
   ⟨(spec_C6_validation_failure ⟨.modal, .requireClick, 0⟩ ⟨0, true, true⟩ .confirm
      ⟨3, "req-3", .signTransaction, some ⟨1⟩⟩ (Or.inr (by decide))).2.1,
    (spec_C6_validation_failure ⟨.modal, .requireClick, 0⟩ ⟨0, true, true⟩ .confirm
      ⟨3, "req-3", .signTransaction, some ⟨1⟩⟩ (Or.inr (by decide))).2.2⟩⟩

/-! ## Claim C7 -/

theorem routerDeliver_sublist (pending : List String) (ms : List WireMsg) :
    List.Sublist (routerDeliver pending ms) ms := by
  induction ms generalizing pending with
  | nil => simp [routerDeliver]
  | cons m rest ih =>
    by_cases hm : m.reqId ∈ pending
    · cases m with
      | progress rid2 pl =>
        simp only [routerDeliver, hm, if_pos]
        exact (ih pending).cons₂ _
      | terminal rid2 ok =>
        simp only [routerDeliver, hm, if_pos]
        exact (ih _).cons₂ _
    · simp only [routerDeliver, hm, if_neg, not_false_eq_true]
      exact (ih pending).cons _

theorem routerDeliver_not_mem (rid : String) (ms : List WireMsg) :
    ∀ pending, rid ∉ pending → ∀ m ∈ routerDeliver pending ms, msgFor rid m = false := by
  induction ms with
  | nil => intro pending _ m hm; simp [routerDeliver] at hm
  | cons m rest ih =>
    intro pending hrid m2 hm2
    by_cases hm : m.reqId ∈ pending
    · have hne : m.reqId ≠ rid := fun h => hrid (h ▸ hm)
      cases m with
      | progress rid2 pl =>
        simp only [routerDeliver, hm, if_pos, List.mem_cons] at hm2
        rcases hm2 with rfl | hm2
        · simp only [msgFor, WireMsg.reqId]
          exact beq_eq_false_iff_ne.mpr hne
        · exact ih pending hrid m2 hm2
      | terminal rid2 ok =>
        simp only [routerDeliver, hm, if_pos, List.mem_cons] at hm2
        rcases hm2 with rfl | hm2
        · simp only [msgFor, WireMsg.reqId]
          exact beq_eq_false_iff_ne.mpr hne
        · refine ih _ ?_ m2 hm2
          intro hmem
          exact hrid (List.mem_of_mem_filter hmem)
    · simp only [routerDeliver, hm, if_neg, not_false_eq_true] at hm2
      exact ih pending hrid m2 hm2

theorem termLast_routerDeliver (pending : List String) (ms : List WireMsg) (rid : String) :
    termLast rid (routerDeliver pending ms) = true := by
  induction ms generalizing pending with
  | nil => rfl
  | cons m rest ih =>
    by_cases hm : m.reqId ∈ pending
    · cases m with
      | progress rid2 pl =>
        have hcond : terminalFor rid (WireMsg.progress rid2 pl) = false := by
          simp [terminalFor, WireMsg.isTerminal]
        simp only [routerDeliver, hm, if_pos, termLast, hcond, Bool.false_eq_true,
          if_neg, not_false_eq_true]
        exact ih pending
      | terminal rid2 ok =>
        by_cases hr : rid2 = rid
        · subst hr
          have hcond : terminalFor rid2 (WireMsg.terminal rid2 ok) = true := by
            simp [terminalFor, WireMsg.isTerminal, WireMsg.reqId]
          simp only [routerDeliver, hm, if_pos, termLast, hcond, if_pos]
          rw [List.all_eq_true]
          intro m2 hm2
          have hnot : rid2 ∉ pending.filter (fun x => x != rid2) := by
            intro hmem
            have := List.of_mem_filter hmem
            simp at this
          have := routerDeliver_not_mem rid2 rest _ hnot m2 hm2
          simp [this]
        · have hcond : terminalFor rid (WireMsg.terminal rid2 ok) = false := by
            simp [terminalFor, WireMsg.isTerminal, WireMsg.reqId, hr]
          simp only [routerDeliver, hm, if_pos, termLast, hcond, Bool.false_eq_true,
            if_neg, not_false_eq_true]
          exact ih _
    · simp only [routerDeliver, hm, if_neg, not_false_eq_true]
      exact ih pending

theorem countP_le_one_of_termLast (rid : String) (l : List WireMsg)
    (h : termLast rid l = true) : l.countP (fun m => terminalFor rid m) ≤ 1 := by
  induction l with
  | nil => simp
  | cons m rest ih =>
    by_cases hm : terminalFor rid m = true
    · have hall : rest.all (fun m2 => !msgFor rid m2) = true := by
        simpa [termLast, hm] using h
      have hzero : rest.countP (fun m2 => terminalFor rid m2) = 0 := by
        rw [List.countP_eq_zero]
        intro m2 hm2
        have hnm := List.all_eq_true.mp hall m2 hm2
        simp only [Bool.not_eq_eq_eq_not, Bool.not_true, msgFor] at hnm
        simp [terminalFor, hnm]
      simp [List.countP_cons, hm, hzero]
    · have h2 : termLast rid rest = true := by simpa [termLast, hm] using h
      have hrest := ih h2
      simp only [List.countP_cons, hm]
      simpa using hrest

/-- C7: for every requestId, the router delivers PROGRESS messages in their
emission order (the delivered progress stream for an id is a sublist of the
emitted one), delivers no message of a requestId after that requestId's
terminal message, and delivers at most one terminal message per requestId. -/
theorem spec_C7_router_ordering (pending : List String) (ms : List WireMsg) (rid : String) :
    List.Sublist ((routerDeliver pending ms).filter (fun m => progressFor rid m))
        (ms.filter (fun m => progressFor rid m))
    ∧ termLast rid (routerDeliver pending ms) = true
    ∧ (routerDeliver pending ms).countP (fun m => terminalFor rid m) ≤ 1 :=
  ⟨(routerDeliver_sublist pending ms).filter _,
   termLast_routerDeliver pending ms rid,
   countP_le_one_of_termLast rid _ (termLast_routerDeliver pending ms rid)⟩

/-! ## Claim C8 -/

/-- C8: for an account whose access key nonce is n, the fetched transaction
context's nextNonce is the decimal string of n+1 computed with exact
big-integer arithmetic (a missing or unreadable access key counts as n=0),
and a SIGN_TRANSACTION flow with one signing sub-request at base nonce 300
reserves exactly `["301"]` (and on cancel releases exactly that and answers
`confirmed:false`). -/
theorem spec_C8_next_nonce :
    (∀ n blockHash, (fetchTxContext (.ok (some n)) blockHash).nextNonce = Nat.repr (n + 1))
    ∧ (∀ e blockHash, fetchTxContext (.error e) blockHash
          = { nextNonce := "1", blockHash := blockHash })
    ∧ (∀ blockHash, fetchTxContext (.ok none) blockHash
          = { nextNonce := "1", blockHash := blockHash })
    ∧ (fetchTxContext (.ok (some 18446744073709551615)) "h").nextNonce
        = "18446744073709551616"
    ∧ (handleSecureConfirm ⟨.modal, .requireClick, 0⟩ ⟨300, true, true⟩ .cancel
        ⟨2, "scenario-a", .signTransaction, some ⟨1⟩⟩).reserved = ["301"]
    ∧ (handleSecureConfirm ⟨.modal, .requireClick, 0⟩ ⟨300, true, true⟩ .cancel
        ⟨2, "scenario-a", .signTransaction, some ⟨1⟩⟩).released = ["301"]
    ∧ (handleSecureConfirm ⟨.modal, .requireClick, 0⟩ ⟨300, true, true⟩ .cancel
        ⟨2, "scenario-a", .signTransaction, some ⟨1⟩⟩).messages
        = [{ confirmed := false, error := none }] :=
  ⟨fun n blockHash => rfl,
   fun e blockHash =>
     congrArg (fun s => TxContext.mk s blockHash) (by decide : Nat.repr (0 + 1) = "1"),
   fun blockHash =>
     congrArg (fun s => TxContext.mk s blockHash) (by decide : Nat.repr (0 + 1) = "1"),
   by decide, by decide, by decide, by decide⟩

/-! ## Claim C10 -/

/-- C10: whenever the broadcast of the verify_authentication_response
transaction resolves without throwing, `verifyAuthenticationResponse`
returns success and verified together with a freshly issued JWT and a
session credential expiring 24 hours later, for every execution outcome —
and `parseContractResponse` never inspects the outcome (it is a constant
function of the execution result). -/
theorem spec_C10_verify_auth (result : FinalExecutionOutcome) (userId : String)
    (nowMs : Nat) :
    verifyAuthenticationResponse (.ok result) userId nowMs
      = { success := true, verified := true, jwt := some (generateJWT userId nowMs),
          sessionCredential := some { userId := userId, issuedAtMs := nowMs,
                                      expiresAtMs := nowMs + 24 * 60 * 60 * 1000 },
          error := none }
    ∧ (∀ r1 r2 : FinalExecutionOutcome, parseContractResponse r1 = parseContractResponse r2) :=
  ⟨rfl, fun _ _ => rfl⟩

end W3A
